import Mathlib

/-!
Shallow embedding of `amundsen_application/static/js/ducks/tableMetadata/api/v0.ts`.

Each exported function of the module is modelled as a pure function taking an
environment `Env` (mapping every HTTP call the program can issue to its settled
outcome) and the function arguments, and returning the ordered list of calls
the invocation issues together with the settled result of the returned promise.
Promise rejection is `Except.error` carrying a `RejectVal`, the JavaScript
value the promise rejects with.  The two functions that index
`tableData.columns` without a bounds check can throw a synchronous `TypeError`
before any request is issued; that outcome is modelled as `Option.none`
(carrying no call trace, since no call was made).

The helper functions imported from `./helpers` and the DTO types imported from
`interfaces` are code of the repository that is not part of this unit; the
helpers are bundled into a `Helpers` record over which every model function is
parametrised, and the DTO types whose contents this module never inspects are
represented abstractly by single-carrier structures.
-/

namespace V0

/-- Modelled from the spec: opaque preview-data DTO owned by the external
interfaces module; this unit never inspects its contents, so it is an
abstract carrier. -/
structure PreviewData where
  raw : String
  deriving DecidableEq

/-- Modelled from the spec: opaque preview query parameters DTO; forwarded
verbatim as a request body, never inspected. -/
structure PreviewQueryParams where
  raw : String
  deriving DecidableEq

/-- Modelled from the spec: opaque dashboard summary DTO; forwarded into the
view model, never inspected. -/
structure DashboardResource where
  raw : String
  deriving DecidableEq

/-- Modelled from the spec: opaque notification body produced by the
`createOwnerNotificationData` helper; forwarded verbatim. -/
structure NotificationData where
  raw : String
  deriving DecidableEq

/-- Modelled from the spec: opaque axios request config produced by the
`createOwnerUpdatePayload` helper; forwarded verbatim to `axios(...)`. -/
structure OwnerUpdatePayload where
  raw : String
  deriving DecidableEq

/-- Modelled from the spec: a tag record; this module only forwards tags. -/
structure Tag where
  tag_name : String
  deriving DecidableEq

/-- Modelled from the spec: an owner or user record; this module only passes
users to the `shouldSendNotification` helper and into the view model. -/
structure User where
  user_id : String
  deriving DecidableEq

/-- Modelled from the spec and the use sites in the source: an element of the
owner update array; the source reads its `id` field for the user fetch URL. -/
structure UpdateOwnerPayload where
  id : String
  method : String
  deriving DecidableEq

/-- Modelled from the spec: a column of the table metadata; the source reads
`name` and writes `description`. -/
structure ColumnMetadata where
  name : String
  description : String
  deriving DecidableEq

/-- Modelled from the spec (key, columns, description, tags): the table
metadata DTO this module reads the `key` and `columns` of and whose
`description` fields it overwrites. -/
structure TableMetadata where
  key : String
  description : String
  columns : List ColumnMetadata
  tags : List Tag
  deriving DecidableEq

/-- `TableData = TableMetadata & { owners; tags }` from the source. -/
structure TableData extends TableMetadata where
  owners : List User
  deriving DecidableEq

/-- A response body, unityped as in JavaScript: each handler reads the fields
it expects from `response.data`.  `previewData` is optional because the
preview error handler explicitly tests its presence; the other fields are
those the module reads on well-typed responses. -/
structure RespData where
  description : String
  timestamp : String
  previewData : Option PreviewData
  tableData : TableData
  dashboards : List DashboardResource
  user : User
  deriving DecidableEq

/-- An axios response: body and HTTP status. -/
structure AxiosResponse where
  data : RespData
  status : Nat
  deriving DecidableEq

/-- An axios transport error: an error identity (`message`) and the server
response when one was received. -/
structure AxiosError where
  message : String
  response : Option AxiosResponse
  deriving DecidableEq

/-- The request bodies this module sends. -/
inductive Body where
  | tableDesc (description : String) (key : String) (source : String)
  | columnDesc (description : String) (column_name : String) (key : String) (source : String)
  | notif (d : NotificationData)
  | preview (q : PreviewQueryParams)
  deriving DecidableEq

/-- An HTTP call the module can issue.  `config c` is `axios(c)` applied to an
opaque request config built by a helper. -/
inductive Call where
  | get (url : String)
  | put (url : String) (body : Body)
  | post (url : String) (body : Body)
  | config (c : OwnerUpdatePayload)
  deriving DecidableEq

/-- The `data` field of the value `getPreviewData` rejects with: the empty
object `\x7b\x7d`, or the partial previewData payload from the error response. -/
inductive PreviewFallback where
  | empty
  | preview (p : PreviewData)
  deriving DecidableEq

/-- A JavaScript value a promise of this module can reject with: either the
original axios transport error, propagated unchanged, or the
`\x7b data, status \x7d` object built by the catch handler of
`getPreviewData` (`status` is `none` for JavaScript `null`). -/
inductive RejectVal where
  | axios (e : AxiosError)
  | previewReject (data : PreviewFallback) (status : Option Nat)
  deriving DecidableEq

/-- The environment: the settled outcome of every HTTP call.  It is the shared
state outside the module (network and backing services). -/
abbrev Env := Call → Except AxiosError AxiosResponse

/-- The helper functions this module imports from `./helpers`; they are not
part of this unit, so the model is parametrised over them. -/
structure Helpers where
  getTableQueryParams : String → Option String → Option String → String
  getRelatedDashboardSlug : String → String
  getTableDataFromResponseData : RespData → RespData → TableMetadata
  getTableOwnersFromResponseData : RespData → List User
  createOwnerUpdatePayload : UpdateOwnerPayload → String → OwnerUpdatePayload
  createOwnerNotificationData : UpdateOwnerPayload → TableMetadata → NotificationData
  shouldSendNotification : User → Bool

def API_PATH : String := "/api/metadata/v0"

/-- The view model returned by `getTableData`. -/
structure GetTableDataResult where
  data : TableMetadata
  owners : List User
  tags : List Tag
  statusCode : Nat
  deriving DecidableEq

/-- The related-dashboards URL built by `getTableData`. -/
def tableDataDashboardsURL (H : Helpers) (tableKey : String) : String :=
  API_PATH ++ "/table/" ++ H.getRelatedDashboardSlug tableKey ++ "/dashboards"

/-- The table-metadata URL built by `getTableData`. -/
def tableDataTableURL (H : Helpers) (tableKey : String)
    (index : Option String) (source : Option String) : String :=
  API_PATH ++ "/table?" ++ H.getTableQueryParams tableKey index source

/-- `getTableData`: creates the related-dashboards request, then the table
request (both are issued eagerly, before `Promise.all` joins them: neither
issuance depends on the outcome of the other), and maps the joined responses
into the view model.  When only one request fails, `Promise.all` rejects with
the error of that request; when both fail the real `Promise.all` rejects with
whichever settles first, which real time decides; the model resolves that tie
in favour of the table request (the first element of the joined array). -/
def getTableData (H : Helpers) (env : Env) (tableKey : String)
    (index : Option String) (source : Option String) :
    List Call × Except RejectVal GetTableDataResult :=
  let relatedDashboardsURL := tableDataDashboardsURL H tableKey
  let relatedDashboardsOutcome := env (Call.get relatedDashboardsURL)
  let tableURL := tableDataTableURL H tableKey index source
  let tableOutcome := env (Call.get tableURL)
  ([Call.get relatedDashboardsURL, Call.get tableURL],
    match tableOutcome, relatedDashboardsOutcome with
    | Except.ok tableResponse, Except.ok relatedDashboardsResponse =>
        Except.ok
          { data := H.getTableDataFromResponseData tableResponse.data
              relatedDashboardsResponse.data
            owners := H.getTableOwnersFromResponseData tableResponse.data
            tags := tableResponse.data.tableData.tags
            statusCode := tableResponse.status }
    | Except.error e, _ => Except.error (RejectVal.axios e)
    | _, Except.error e => Except.error (RejectVal.axios e))

/-- The URL built by `getTableDescription`. -/
def tableDescriptionURL (H : Helpers) (tableData : TableMetadata) : String :=
  API_PATH ++ "/get_table_description?" ++ H.getTableQueryParams tableData.key none none

/-- `getTableDescription`: one GET; on success the source assigns
`tableData.description = response.data.description` in place on the object the
caller passed and resolves with that same object, so the resolved value is also the
final state of the `tableData` argument. -/
def getTableDescription (H : Helpers) (env : Env) (tableData : TableMetadata) :
    List Call × Except RejectVal TableMetadata :=
  let url := tableDescriptionURL H tableData
  match env (Call.get url) with
  | Except.error e => ([Call.get url], Except.error (RejectVal.axios e))
  | Except.ok response =>
      ([Call.get url], Except.ok { tableData with description := response.data.description })

/-- `updateTableDescription`: one PUT whose body is built from the inputs. -/
def updateTableDescription (env : Env) (description : String)
    (tableData : TableMetadata) : List Call × Except RejectVal AxiosResponse :=
  let c := Call.put (API_PATH ++ "/put_table_description")
    (Body.tableDesc description tableData.key "user")
  match env c with
  | Except.error e => ([c], Except.error (RejectVal.axios e))
  | Except.ok r => ([c], Except.ok r)

/-- The URL built by `getTableOwners`. -/
def tableOwnersURL (H : Helpers) (tableKey : String) : String :=
  API_PATH ++ "/table?" ++ H.getTableQueryParams tableKey none none

/-- `getTableOwners`: one GET mapped through the owners helper. -/
def getTableOwners (H : Helpers) (env : Env) (tableKey : String) :
    List Call × Except RejectVal (List User) :=
  let url := tableOwnersURL H tableKey
  match env (Call.get url) with
  | Except.error e => ([Call.get url], Except.error (RejectVal.axios e))
  | Except.ok response =>
      ([Call.get url], Except.ok (H.getTableOwnersFromResponseData response.data))

/-- The owner-update call `axios(updatePayload)` of one chain element. -/
def ownerUpdateCall (H : Helpers) (tableData : TableMetadata)
    (item : UpdateOwnerPayload) : Call :=
  Call.config (H.createOwnerUpdatePayload item tableData.key)

/-- The user fetch of one chain element, keyed by the `id` of the element. -/
def ownerUserCall (item : UpdateOwnerPayload) : Call :=
  Call.get ("/api/metadata/v0/user?user_id=" ++ item.id)

/-- The notification post of one chain element. -/
def ownerNotifCall (H : Helpers) (tableData : TableMetadata)
    (item : UpdateOwnerPayload) : Call :=
  Call.post "/api/mail/v0/notification"
    (Body.notif (H.createOwnerNotificationData item tableData))

/-- One chained request built by `generateOwnerUpdateRequests` for one element
of the update array: `axios(updatePayload)`, then on success the user fetch,
then on success the conditional notification post.  The chain resolves with
the notification response when one was sent and with `undefined` (here
`none`) otherwise, and rejects with the first transport error unchanged. -/
def ownerUpdateChain (H : Helpers) (env : Env) (tableData : TableMetadata)
    (item : UpdateOwnerPayload) : List Call × Except RejectVal (Option AxiosResponse) :=
  let updateCall := ownerUpdateCall H tableData item
  let userCall := ownerUserCall item
  let notifCall := ownerNotifCall H tableData item
  match env updateCall with
  | Except.error e => ([updateCall], Except.error (RejectVal.axios e))
  | Except.ok _ =>
      match env userCall with
      | Except.error e => ([updateCall, userCall], Except.error (RejectVal.axios e))
      | Except.ok userResponse =>
          if H.shouldSendNotification userResponse.data.user then
            match env notifCall with
            | Except.error e =>
                ([updateCall, userCall, notifCall], Except.error (RejectVal.axios e))
            | Except.ok notifResponse =>
                ([updateCall, userCall, notifCall], Except.ok (some notifResponse))
          else ([updateCall, userCall], Except.ok none)

/-- `generateOwnerUpdateRequests`: builds (and, because the chains start
eagerly, issues) one chained request per element of `updateArray`, pushed in
array order; the `forEach` plus `push` of the source is the map below. -/
def generateOwnerUpdateRequests (H : Helpers) (env : Env)
    (updateArray : List UpdateOwnerPayload) (tableData : TableMetadata) :
    List (List Call × Except RejectVal (Option AxiosResponse)) :=
  updateArray.map (ownerUpdateChain H env tableData)

/-- All calls one invocation of `generateOwnerUpdateRequests` issues, listed
chain by chain (the eager chains interleave in real time, but which calls are
issued, per chain and in total, is exactly this list). -/
def generateOwnerUpdateRequestsTrace (H : Helpers) (env : Env)
    (updateArray : List UpdateOwnerPayload) (tableData : TableMetadata) : List Call :=
  ((generateOwnerUpdateRequests H env updateArray tableData).map Prod.fst).flatten

/-- The table metadata after the overwrite, in place on the object the caller passed,
of the description of the column at `columnIndex` (the column being `col`). -/
def setColumnDescription (tableData : TableMetadata) (columnIndex : Nat)
    (col : ColumnMetadata) (desc : String) : TableMetadata :=
  let newCol := { col with description := desc }
  { tableData with columns := tableData.columns.set columnIndex newCol }

/-- The URL built by `getColumnDescription` for a column. -/
def columnDescriptionURL (H : Helpers) (tableData : TableMetadata)
    (col : ColumnMetadata) : String :=
  API_PATH ++ "/get_column_description?" ++ H.getTableQueryParams tableData.key none none
    ++ "&column_name=" ++ col.name

/-- `getColumnDescription`: reads `tableData.columns[columnIndex].name` with no
bounds check before issuing the GET; an out-of-range index makes the `.name`
access throw a synchronous TypeError (`none`, no call issued).  On success the
source assigns the description of that column in place on the object the caller passed
and resolves with that same object. -/
def getColumnDescription (H : Helpers) (env : Env) (columnIndex : Nat)
    (tableData : TableMetadata) : Option (List Call × Except RejectVal TableMetadata) :=
  match tableData.columns[columnIndex]? with
  | none => none
  | some col =>
      let url := columnDescriptionURL H tableData col
      match env (Call.get url) with
      | Except.error e => some ([Call.get url], Except.error (RejectVal.axios e))
      | Except.ok response =>
          some ([Call.get url],
            Except.ok (setColumnDescription tableData columnIndex col
              response.data.description))

/-- `updateColumnDescription`: reads the column name with no bounds check
(`none` on an out-of-range index, before any call), then one PUT whose body is
built from the inputs. -/
def updateColumnDescription (env : Env) (description : String) (columnIndex : Nat)
    (tableData : TableMetadata) : Option (List Call × Except RejectVal AxiosResponse) :=
  match tableData.columns[columnIndex]? with
  | none => none
  | some col =>
      let c := Call.put (API_PATH ++ "/put_column_description")
        (Body.columnDesc description col.name tableData.key "user")
      match env c with
      | Except.error e => some ([c], Except.error (RejectVal.axios e))
      | Except.ok r => some ([c], Except.ok r)

/-- `getLastIndexed`: one GET mapped to the timestamp field. -/
def getLastIndexed (env : Env) : List Call × Except RejectVal String :=
  let url := API_PATH ++ "/get_last_indexed"
  match env (Call.get url) with
  | Except.error e => ([Call.get url], Except.error (RejectVal.axios e))
  | Except.ok response => ([Call.get url], Except.ok response.data.timestamp)

/-- The value `getPreviewData` resolves with on success. -/
structure PreviewResult where
  data : Option PreviewData
  status : Nat
  deriving DecidableEq

/-- `getPreviewData`: one POST (`axios` with a method POST config); on success
it resolves with the previewData and status of the response; on failure the
catch handler rejects with a fresh object whose data is the previewData of the
error response when present (the empty object otherwise) and whose status is
the response status when a response exists and null otherwise. -/
def getPreviewData (env : Env) (queryParams : PreviewQueryParams) :
    List Call × Except RejectVal PreviewResult :=
  let c := Call.post "/api/preview/v0/" (Body.preview queryParams)
  match env c with
  | Except.ok response =>
      ([c], Except.ok { data := response.data.previewData, status := response.status })
  | Except.error e =>
      let data : PreviewFallback :=
        match e.response with
        | some r =>
            match r.data.previewData with
            | some p => PreviewFallback.preview p
            | none => PreviewFallback.empty
        | none => PreviewFallback.empty
      let status : Option Nat :=
        match e.response with
        | some r => some r.status
        | none => none
      ([c], Except.error (RejectVal.previewReject data status))

/-! Concrete helper instances, data and environments used by the witnesses and
counterexamples below. -/

/-- A concrete instance of the imported helpers. -/
def H0 : Helpers where
  getTableQueryParams := fun k _ _ => "key=" ++ k
  getRelatedDashboardSlug := fun k => k
  getTableDataFromResponseData := fun t _ => t.tableData.toTableMetadata
  getTableOwnersFromResponseData := fun t => t.tableData.owners
  createOwnerUpdatePayload := fun item k => { raw := item.method ++ " " ++ k }
  createOwnerNotificationData := fun _ _ => { raw := "notify" }
  shouldSendNotification := fun _ => true

def user0 : User := { user_id := "u1" }

def tag0 : Tag := { tag_name := "t1" }

def col0 : ColumnMetadata := { name := "c0", description := "colOld" }

def tmd0 : TableMetadata :=
  { key := "k1", description := "old", columns := [col0], tags := [tag0] }

/-- The state of `tmd0` after its description has been overwritten with the
description field of `resp0`. -/
def tmd1 : TableMetadata := { tmd0 with description := "fresh" }

def tdata0 : TableData := { toTableMetadata := tmd0, owners := [user0] }

def previewData0 : PreviewData := { raw := "rows" }

def q0 : PreviewQueryParams := { raw := "q" }

def item0 : UpdateOwnerPayload := { id := "owner1", method := "PUT" }

def resp0 : RespData :=
  { description := "fresh", timestamp := "2020", previewData := some previewData0,
    tableData := tdata0, dashboards := [], user := user0 }

def okResp : AxiosResponse := { data := resp0, status := 200 }

/-- Every call succeeds. -/
def okEnv : Env := fun _ => Except.ok okResp

def err0 : AxiosError := { message := "boom", response := none }

/-- Every call fails, with no server response. -/
def errEnv : Env := fun _ => Except.error err0

def errResp : AxiosResponse := { data := resp0, status := 500 }

/-- A transport error that carries a server response. -/
def errWithResp : AxiosError := { message := "boom", response := some errResp }

/-- Every call fails with an error carrying a server response. -/
def errRespEnv : Env := fun _ => Except.error errWithResp

/-- Owner-update config calls succeed; everything else fails. -/
def mixedEnv : Env := fun c =>
  match c with
  | Call.config _ => Except.ok okResp
  | _ => Except.error err0

/-- Posts fail; everything else succeeds. -/
def notifFailEnv : Env := fun c =>
  match c with
  | Call.post _ _ => Except.error err0
  | _ => Except.ok okResp

/-- The related-dashboards request of `getTableData H0 "k1"` fails; everything
else succeeds. -/
def dashFailEnv : Env := fun c =>
  match c with
  | Call.get url =>
      if url = "/api/metadata/v0/table/k1/dashboards" then Except.error err0
      else Except.ok okResp
  | _ => Except.ok okResp

/-- The final state of `tmd0` after `getColumnDescription` overwrites the
description of its only column with the description field of `resp0`. -/
def colDescTd1 : TableMetadata :=
  { tmd0 with columns := [{ col0 with description := "fresh" }] }

/-- The concrete outcome of `getColumnDescription H0 okEnv 0 tmd0`. -/
def colDescOut0 : List Call × Except RejectVal TableMetadata :=
  ([Call.get (columnDescriptionURL H0 tmd0 col0)], Except.ok colDescTd1)

/-- The concrete outcome of `updateColumnDescription okEnv "d" 0 tmd0`. -/
def updColOut0 : List Call × Except RejectVal AxiosResponse :=
  ([Call.put (API_PATH ++ "/put_column_description")
    (Body.columnDesc "d" col0.name tmd0.key "user")], Except.ok okResp)

/-- C1: on a failed request, getPreviewData catches the error and yields a
rejected result whose data field is the previewData payload extracted from the
error response when one is present, the empty result otherwise, and whose
status field is the response status when a response exists and null (here
`none`) otherwise. -/
theorem getPreviewData_catch_spec (env : Env) (q : PreviewQueryParams) (e : AxiosError)
    (h : env (Call.post "/api/preview/v0/" (Body.preview q)) = Except.error e) :
    (e.response = none →
      (getPreviewData env q).2 =
        Except.error (RejectVal.previewReject PreviewFallback.empty none)) ∧
    (∀ r, e.response = some r → r.data.previewData = none →
      (getPreviewData env q).2 =
        Except.error (RejectVal.previewReject PreviewFallback.empty (some r.status))) ∧
    (∀ r p, e.response = some r → r.data.previewData = some p →
      (getPreviewData env q).2 =
        Except.error (RejectVal.previewReject (PreviewFallback.preview p) (some r.status))) := by
  refine ⟨?_, ?_, ?_⟩
  · intro hr
    simp [getPreviewData, h, hr]
  · intro r hr hp
    simp [getPreviewData, h, hr, hp]
  · intro r p hr hp
    simp [getPreviewData, h, hr, hp]

/-- Witness for C1: a concrete failed request whose error carries a response
with a partial previewData payload and status 500. -/
theorem getPreviewData_catch_spec_witness :
    (getPreviewData errRespEnv q0).2 =
      Except.error (RejectVal.previewReject (PreviewFallback.preview previewData0) (some 500)) :=
  (getPreviewData_catch_spec errRespEnv q0 errWithResp rfl).2.2 errResp previewData0 rfl rfl

/-- C7: updateTableDescription sends a PUT whose payload is exactly
the description, the table key and the literal source `user`, and
updateColumnDescription sends a PUT whose payload is exactly the description,
the name of the column at columnIndex, the table key and the literal source
`user`, for every description, in-bounds columnIndex and tableData. -/
theorem update_description_payloads (env : Env) (description : String) (ci : Nat)
    (td : TableMetadata) :
    (updateTableDescription env description td).1 =
      [Call.put (API_PATH ++ "/put_table_description")
        (Body.tableDesc description td.key "user")] ∧
    (∀ c, td.columns[ci]? = some c →
      ∃ res, updateColumnDescription env description ci td =
        some ([Call.put (API_PATH ++ "/put_column_description")
          (Body.columnDesc description c.name td.key "user")], res)) := by
  constructor
  · cases he : env (Call.put (API_PATH ++ "/put_table_description")
        (Body.tableDesc description td.key "user")) <;>
      simp [updateTableDescription, he]
  · intro c hc
    unfold updateColumnDescription
    rw [hc]
    cases he : env (Call.put (API_PATH ++ "/put_column_description")
        (Body.columnDesc description c.name td.key "user")) with
    | error e => exact ⟨Except.error (RejectVal.axios e), by simp [he]⟩
    | ok r => exact ⟨Except.ok r, by simp [he]⟩

/-- Witness for C7 at a concrete description, column index and table. -/
theorem update_description_payloads_witness :
    (updateTableDescription okEnv "nd" tmd0).1 =
      [Call.put (API_PATH ++ "/put_table_description")
        (Body.tableDesc "nd" tmd0.key "user")] ∧
    ∃ res, updateColumnDescription okEnv "nd" 0 tmd0 =
      some ([Call.put (API_PATH ++ "/put_column_description")
        (Body.columnDesc "nd" col0.name tmd0.key "user")], res) := by
  have h := update_description_payloads okEnv "nd" 0 tmd0
  exact ⟨h.1, h.2 col0 rfl⟩

/-- C9: getColumnDescription and updateColumnDescription index
`tableData.columns` with no bounds check: an in-bounds columnIndex makes the
column access (and the invocation) succeed, while an out-of-range columnIndex
makes the access to the column name throw (result `none`) before any HTTP
call is issued: `none` carries no call trace at all. -/
theorem column_index_bounds (H : Helpers) (env : Env) (ci : Nat)
    (td : TableMetadata) (d : String) :
    (ci < td.columns.length →
      (getColumnDescription H env ci td).isSome ∧
      (updateColumnDescription env d ci td).isSome) ∧
    (td.columns.length ≤ ci →
      getColumnDescription H env ci td = none ∧
      updateColumnDescription env d ci td = none) := by
  constructor
  · intro hlt
    have hc : td.columns[ci]? = some td.columns[ci] := List.getElem?_eq_getElem hlt
    constructor
    · unfold getColumnDescription
      rw [hc]
      cases he : env (Call.get (columnDescriptionURL H td td.columns[ci])) <;> simp [he]
    · unfold updateColumnDescription
      rw [hc]
      cases he : env (Call.put (API_PATH ++ "/put_column_description")
          (Body.columnDesc d td.columns[ci].name td.key "user")) <;> simp [he]
  · intro hge
    have hc : td.columns[ci]? = none := List.getElem?_eq_none hge
    constructor
    · unfold getColumnDescription
      rw [hc]
    · unfold updateColumnDescription
      rw [hc]

/-- Witness for C9: index 0 is in bounds for a one-column table and the calls
go through; index 5 is out of range and both functions throw before calling. -/
theorem column_index_bounds_witness :
    ((getColumnDescription H0 okEnv 0 tmd0).isSome ∧
      (updateColumnDescription okEnv "d" 0 tmd0).isSome) ∧
    (getColumnDescription H0 okEnv 5 tmd0 = none ∧
      updateColumnDescription okEnv "d" 5 tmd0 = none) := by
  constructor
  · exact (column_index_bounds H0 okEnv 0 tmd0 "d").1 (by decide)
  · exact (column_index_bounds H0 okEnv 5 tmd0 "d").2 (by decide)

/-- C10: generateOwnerUpdateRequests returns exactly one chained request per
element of updateArray, in the same order as updateArray; for an empty
updateArray it returns an empty list and the invocation issues no HTTP call. -/
theorem generateOwnerUpdateRequests_list_shape (H : Helpers) (env : Env)
    (updateArray : List UpdateOwnerPayload) (td : TableMetadata) :
    (generateOwnerUpdateRequests H env updateArray td).length = updateArray.length ∧
    (∀ (i : Nat) (item : UpdateOwnerPayload), updateArray[i]? = some item →
      (generateOwnerUpdateRequests H env updateArray td)[i]? =
        some (ownerUpdateChain H env td item)) ∧
    (updateArray = [] →
      generateOwnerUpdateRequests H env updateArray td = [] ∧
      generateOwnerUpdateRequestsTrace H env updateArray td = []) := by
  refine ⟨?_, ?_, ?_⟩
  · simp [generateOwnerUpdateRequests]
  · intro i item hi
    simp [generateOwnerUpdateRequests, List.getElem?_map, hi]
  · intro hnil
    subst hnil
    exact ⟨rfl, rfl⟩

/-- Witness for C10: a singleton array yields exactly its chain, and the empty
array yields no requests and no calls. -/
theorem generateOwnerUpdateRequests_list_shape_witness :
    (generateOwnerUpdateRequests H0 okEnv [item0] tmd0).length = 1 ∧
    (generateOwnerUpdateRequests H0 okEnv [item0] tmd0)[0]? =
      some (ownerUpdateChain H0 okEnv tmd0 item0) ∧
    generateOwnerUpdateRequests H0 okEnv [] tmd0 = [] ∧
    generateOwnerUpdateRequestsTrace H0 okEnv [] tmd0 = [] := by
  have h1 := generateOwnerUpdateRequests_list_shape H0 okEnv [item0] tmd0
  have h2 := generateOwnerUpdateRequests_list_shape H0 okEnv [] tmd0
  exact ⟨h1.1, h1.2.1 0 item0 rfl, (h2.2.2 rfl).1, (h2.2.2 rfl).2⟩

/-- C2: for every element of updateArray, the chained request built by
generateOwnerUpdateRequests fires the owner-update call first; the user fetch
for the id of that element fires only after the update succeeds; the notification
post fires only after the user fetch succeeds and only when
shouldSendNotification holds for the fetched user; the notification is never
sent otherwise and the calls never fire in any other order: the call trace of
every run is one of the four listed prefixes. -/
theorem generateOwnerUpdateRequests_chain_order (H : Helpers) (env : Env)
    (updateArray : List UpdateOwnerPayload) (tableData : TableMetadata)
    (i : Nat) (item : UpdateOwnerPayload) (hi : updateArray[i]? = some item) :
    ∃ chain,
      (generateOwnerUpdateRequests H env updateArray tableData)[i]? = some chain ∧
      (((∃ e, env (ownerUpdateCall H tableData item) = Except.error e) ∧
          chain.1 = [ownerUpdateCall H tableData item]) ∨
       ((∃ r e, env (ownerUpdateCall H tableData item) = Except.ok r ∧
            env (ownerUserCall item) = Except.error e) ∧
          chain.1 = [ownerUpdateCall H tableData item, ownerUserCall item]) ∨
       ((∃ r u, env (ownerUpdateCall H tableData item) = Except.ok r ∧
            env (ownerUserCall item) = Except.ok u ∧
            H.shouldSendNotification u.data.user = false) ∧
          chain.1 = [ownerUpdateCall H tableData item, ownerUserCall item]) ∨
       ((∃ r u, env (ownerUpdateCall H tableData item) = Except.ok r ∧
            env (ownerUserCall item) = Except.ok u ∧
            H.shouldSendNotification u.data.user = true) ∧
          chain.1 = [ownerUpdateCall H tableData item, ownerUserCall item,
            ownerNotifCall H tableData item])) := by
  refine ⟨ownerUpdateChain H env tableData item, ?_, ?_⟩
  · simp [generateOwnerUpdateRequests, List.getElem?_map, hi]
  · cases hu : env (ownerUpdateCall H tableData item) with
    | error e =>
        exact Or.inl ⟨⟨e, rfl⟩, by simp [ownerUpdateChain, hu]⟩
    | ok r =>
        cases hv : env (ownerUserCall item) with
        | error e =>
            exact Or.inr (Or.inl ⟨⟨r, e, rfl, rfl⟩, by simp [ownerUpdateChain, hu, hv]⟩)
        | ok u =>
            cases hs : H.shouldSendNotification u.data.user with
            | false =>
                exact Or.inr (Or.inr (Or.inl ⟨⟨r, u, rfl, rfl, hs⟩,
                  by simp [ownerUpdateChain, hu, hv, hs]⟩))
            | true =>
                refine Or.inr (Or.inr (Or.inr ⟨⟨r, u, rfl, rfl, hs⟩, ?_⟩))
                cases hn : env (ownerNotifCall H tableData item) with
                | error e => simp [ownerUpdateChain, hu, hv, hs, hn]
                | ok nr => simp [ownerUpdateChain, hu, hv, hs, hn]

/-- Witness for C2: the full chain-order property at a concrete singleton
update array, environment and table. -/
theorem generateOwnerUpdateRequests_chain_order_witness :
    ∃ chain,
      (generateOwnerUpdateRequests H0 okEnv [item0] tmd0)[0]? = some chain ∧
      (((∃ e, okEnv (ownerUpdateCall H0 tmd0 item0) = Except.error e) ∧
          chain.1 = [ownerUpdateCall H0 tmd0 item0]) ∨
       ((∃ r e, okEnv (ownerUpdateCall H0 tmd0 item0) = Except.ok r ∧
            okEnv (ownerUserCall item0) = Except.error e) ∧
          chain.1 = [ownerUpdateCall H0 tmd0 item0, ownerUserCall item0]) ∨
       ((∃ r u, okEnv (ownerUpdateCall H0 tmd0 item0) = Except.ok r ∧
            okEnv (ownerUserCall item0) = Except.ok u ∧
            H0.shouldSendNotification u.data.user = false) ∧
          chain.1 = [ownerUpdateCall H0 tmd0 item0, ownerUserCall item0]) ∨
       ((∃ r u, okEnv (ownerUpdateCall H0 tmd0 item0) = Except.ok r ∧
            okEnv (ownerUserCall item0) = Except.ok u ∧
            H0.shouldSendNotification u.data.user = true) ∧
          chain.1 = [ownerUpdateCall H0 tmd0 item0, ownerUserCall item0,
            ownerNotifCall H0 tmd0 item0])) :=
  generateOwnerUpdateRequests_chain_order H0 okEnv [item0] tmd0 0 item0 rfl

/-- C3: getTableData issues the related-dashboards request and the table
request on every run, unconditionally on either outcome (the parallel join);
the result is a success exactly when both requests succeed; and on success the
view model is the table response merged with the dashboards response by the
merge helper, with owners and tags taken from the table response and
statusCode the HTTP status of the table response. -/
theorem getTableData_parallel_join_spec (H : Helpers) (env : Env)
    (tableKey : String) (index : Option String) (source : Option String) :
    (getTableData H env tableKey index source).1 =
      [Call.get (tableDataDashboardsURL H tableKey),
        Call.get (tableDataTableURL H tableKey index source)] ∧
    ((∃ v, (getTableData H env tableKey index source).2 = Except.ok v) ↔
      ((∃ t, env (Call.get (tableDataTableURL H tableKey index source)) = Except.ok t) ∧
       (∃ d, env (Call.get (tableDataDashboardsURL H tableKey)) = Except.ok d))) ∧
    (∀ t d, env (Call.get (tableDataTableURL H tableKey index source)) = Except.ok t →
      env (Call.get (tableDataDashboardsURL H tableKey)) = Except.ok d →
      (getTableData H env tableKey index source).2 = Except.ok
        { data := H.getTableDataFromResponseData t.data d.data
          owners := H.getTableOwnersFromResponseData t.data
          tags := t.data.tableData.tags
          statusCode := t.status }) := by
  refine ⟨by simp [getTableData], ?_, ?_⟩
  · cases ht : env (Call.get (tableDataTableURL H tableKey index source)) with
    | error e =>
        cases hd : env (Call.get (tableDataDashboardsURL H tableKey)) <;>
          simp [getTableData, ht, hd]
    | ok t =>
        cases hd : env (Call.get (tableDataDashboardsURL H tableKey)) <;>
          simp [getTableData, ht, hd]
  · intro t d ht hd
    simp [getTableData, ht, hd]

/-- Witness for C3: the merged view model at a concrete key and an
all-successful environment. -/
theorem getTableData_parallel_join_spec_witness :
    (getTableData H0 okEnv "k1" none none).2 = Except.ok
      { data := H0.getTableDataFromResponseData okResp.data okResp.data
        owners := H0.getTableOwnersFromResponseData okResp.data
        tags := okResp.data.tableData.tags
        statusCode := okResp.status } :=
  (getTableData_parallel_join_spec H0 okEnv "k1" none none).2.2 okResp okResp rfl rfl

/-- Helper: the outcome of getColumnDescription once the column lookup has
succeeded. -/
theorem getColumnDescription_eq (H : Helpers) (env : Env) (ci : Nat)
    (td : TableMetadata) (c : ColumnMetadata) (hc : td.columns[ci]? = some c) :
    getColumnDescription H env ci td =
      match env (Call.get (columnDescriptionURL H td c)) with
      | Except.error e =>
          some ([Call.get (columnDescriptionURL H td c)],
            Except.error (RejectVal.axios e))
      | Except.ok response =>
          some ([Call.get (columnDescriptionURL H td c)],
            Except.ok (setColumnDescription td ci c response.data.description)) := by
  unfold getColumnDescription
  rw [hc]

/-- Helper: the outcome of updateColumnDescription once the column lookup has
succeeded. -/
theorem updateColumnDescription_eq (env : Env) (d : String) (ci : Nat)
    (td : TableMetadata) (c : ColumnMetadata) (hc : td.columns[ci]? = some c) :
    updateColumnDescription env d ci td =
      match env (Call.put (API_PATH ++ "/put_column_description")
          (Body.columnDesc d c.name td.key "user")) with
      | Except.error e =>
          some ([Call.put (API_PATH ++ "/put_column_description")
            (Body.columnDesc d c.name td.key "user")], Except.error (RejectVal.axios e))
      | Except.ok r =>
          some ([Call.put (API_PATH ++ "/put_column_description")
            (Body.columnDesc d c.name td.key "user")], Except.ok r) := by
  unfold updateColumnDescription
  rw [hc]

/-- Helper: one chained owner-update request issues at most three calls. -/
theorem ownerUpdateChain_length_le (H : Helpers) (env : Env) (td : TableMetadata)
    (item : UpdateOwnerPayload) : (ownerUpdateChain H env td item).1.length ≤ 3 := by
  cases hu : env (ownerUpdateCall H td item) with
  | error e => simp [ownerUpdateChain, hu]
  | ok r =>
      cases hv : env (ownerUserCall item) with
      | error e => simp [ownerUpdateChain, hu, hv]
      | ok u =>
          cases hs : H.shouldSendNotification u.data.user with
          | false => simp [ownerUpdateChain, hu, hv, hs]
          | true =>
              cases hn : env (ownerNotifCall H td item) <;>
                simp [ownerUpdateChain, hu, hv, hs, hn]

/-- Helper: one invocation of generateOwnerUpdateRequests issues at most three
calls per element of the update array. -/
theorem generateOwnerUpdateRequestsTrace_length_le (H : Helpers) (env : Env)
    (arr : List UpdateOwnerPayload) (td : TableMetadata) :
    (generateOwnerUpdateRequestsTrace H env arr td).length ≤ 3 * arr.length := by
  induction arr with
  | nil => simp [generateOwnerUpdateRequestsTrace, generateOwnerUpdateRequests]
  | cons a l ih =>
      have h1 := ownerUpdateChain_length_le H env td a
      simp only [generateOwnerUpdateRequestsTrace, generateOwnerUpdateRequests,
        List.map_cons, List.flatten_cons, List.length_append, List.length_cons] at ih ⊢
      omega

/-- C4 counterexample: one invocation of generateOwnerUpdateRequests on a
single-element update array, in an environment where every call succeeds and
the notification condition holds, issues three network calls (owner update,
user fetch, notification post), which exceeds two. -/
theorem at_most_two_calls_cex :
    2 < (generateOwnerUpdateRequestsTrace H0 okEnv [item0] tmd0).length := by
  decide

/-- C4 amended: every exported function of the module other than
generateOwnerUpdateRequests performs at most two sequential or parallel
network calls per invocation; generateOwnerUpdateRequests performs at most
three network calls per element of updateArray. -/
theorem network_calls_bound (H : Helpers) (env : Env) (tableKey : String)
    (index : Option String) (source : Option String) (td : TableMetadata)
    (d : String) (ci : Nat) (q : PreviewQueryParams)
    (arr : List UpdateOwnerPayload) :
    (getTableData H env tableKey index source).1.length ≤ 2 ∧
    (getTableDescription H env td).1.length ≤ 2 ∧
    (updateTableDescription env d td).1.length ≤ 2 ∧
    (getTableOwners H env tableKey).1.length ≤ 2 ∧
    (∀ o, getColumnDescription H env ci td = some o → o.1.length ≤ 2) ∧
    (∀ o, updateColumnDescription env d ci td = some o → o.1.length ≤ 2) ∧
    (getLastIndexed env).1.length ≤ 2 ∧
    (getPreviewData env q).1.length ≤ 2 ∧
    (generateOwnerUpdateRequestsTrace H env arr td).length ≤ 3 * arr.length := by
  refine ⟨by simp [getTableData], ?_, ?_, ?_, ?_, ?_, ?_, ?_,
    generateOwnerUpdateRequestsTrace_length_le H env arr td⟩
  · cases he : env (Call.get (tableDescriptionURL H td)) <;>
      simp [getTableDescription, he]
  · cases he : env (Call.put (API_PATH ++ "/put_table_description")
        (Body.tableDesc d td.key "user")) <;>
      simp [updateTableDescription, he]
  · cases he : env (Call.get (tableOwnersURL H tableKey)) <;>
      simp [getTableOwners, he]
  · intro o ho
    cases hc : td.columns[ci]? with
    | none => unfold getColumnDescription at ho; rw [hc] at ho; cases ho
    | some c =>
        rw [getColumnDescription_eq H env ci td c hc] at ho
        cases he : env (Call.get (columnDescriptionURL H td c)) with
        | error e =>
            rw [he] at ho
            injection ho with ho1
            rw [← ho1]
            simp
        | ok r =>
            rw [he] at ho
            injection ho with ho1
            rw [← ho1]
            simp
  · intro o ho
    cases hc : td.columns[ci]? with
    | none => unfold updateColumnDescription at ho; rw [hc] at ho; cases ho
    | some c =>
        rw [updateColumnDescription_eq env d ci td c hc] at ho
        cases he : env (Call.put (API_PATH ++ "/put_column_description")
            (Body.columnDesc d c.name td.key "user")) with
        | error e =>
            rw [he] at ho
            injection ho with ho1
            rw [← ho1]
            simp
        | ok r =>
            rw [he] at ho
            injection ho with ho1
            rw [← ho1]
            simp
  · cases he : env (Call.get (API_PATH ++ "/get_last_indexed")) <;>
      simp [getLastIndexed, he]
  · cases he : env (Call.post "/api/preview/v0/" (Body.preview q)) <;>
      simp [getPreviewData, he]

/-- Witness for the amended C4 at concrete inputs, with the column-indexed
hypotheses discharged at the concrete outcomes. -/
theorem network_calls_bound_witness :
    (getTableData H0 okEnv "k1" none none).1.length ≤ 2 ∧
    (getTableDescription H0 okEnv tmd0).1.length ≤ 2 ∧
    (updateTableDescription okEnv "d" tmd0).1.length ≤ 2 ∧
    (getTableOwners H0 okEnv "k1").1.length ≤ 2 ∧
    colDescOut0.1.length ≤ 2 ∧
    updColOut0.1.length ≤ 2 ∧
    (getLastIndexed okEnv).1.length ≤ 2 ∧
    (getPreviewData okEnv q0).1.length ≤ 2 ∧
    (generateOwnerUpdateRequestsTrace H0 okEnv [item0] tmd0).length ≤ 3 * 1 := by
  have h := network_calls_bound H0 okEnv "k1" none none tmd0 "d" 0 q0 [item0]
  exact ⟨h.1, h.2.1, h.2.2.1, h.2.2.2.1, h.2.2.2.2.1 colDescOut0 (by rfl),
    h.2.2.2.2.2.1 updColOut0 (by rfl), h.2.2.2.2.2.2.1, h.2.2.2.2.2.2.2.1,
    h.2.2.2.2.2.2.2.2⟩

/-- C5 counterexample: getTableDescription is not stateless.  The source
assigns `tableData.description = response.data.description` in place on its
argument and resolves with that same object, so the resolved value is the
final state of the argument; at this concrete input that final state differs
from the state the argument was passed in. -/
theorem stateless_cex :
    (getTableDescription H0 okEnv tmd0).2 = Except.ok tmd1 ∧ tmd1 ≠ tmd0 :=
  ⟨rfl, by decide⟩

/-- C5 amended: every exported function other than getTableDescription and
getColumnDescription leaves its arguments and all state outside the request
itself unchanged; those two mutate, on success, exactly the description field
of their tableData argument (respectively of its column at columnIndex): the
final state of the argument agrees with its initial state on every other
field and every other column. -/
theorem mutation_scope (H : Helpers) (env : Env) (td : TableMetadata) (ci : Nat) :
    (∀ td1, (getTableDescription H env td).2 = Except.ok td1 →
      td1.key = td.key ∧ td1.columns = td.columns ∧ td1.tags = td.tags) ∧
    (∀ o td1, getColumnDescription H env ci td = some o → o.2 = Except.ok td1 →
      td1.key = td.key ∧ td1.description = td.description ∧ td1.tags = td.tags ∧
      td1.columns.length = td.columns.length ∧
      (∀ j : Nat, j ≠ ci → td1.columns[j]? = td.columns[j]?)) := by
  constructor
  · intro td1 h
    cases he : env (Call.get (tableDescriptionURL H td)) with
    | error e => simp [getTableDescription, he] at h
    | ok r =>
        simp [getTableDescription, he] at h
        subst h
        simp
  · intro o td1 ho h1
    cases hc : td.columns[ci]? with
    | none => unfold getColumnDescription at ho; rw [hc] at ho; cases ho
    | some c =>
        rw [getColumnDescription_eq H env ci td c hc] at ho
        cases he : env (Call.get (columnDescriptionURL H td c)) with
        | error e =>
            rw [he] at ho
            injection ho with ho1
            rw [← ho1] at h1
            cases h1
        | ok r =>
            rw [he] at ho
            injection ho with ho1
            rw [← ho1] at h1
            injection h1 with h2
            subst h2
            refine ⟨rfl, rfl, rfl, ?_, ?_⟩
            · simp [setColumnDescription]
            · intro j hj
              simp only [setColumnDescription]
              exact List.getElem?_set_ne (fun h => hj h.symm)

/-- Witness for the amended C5: concrete runs of both mutating functions,
checking the untouched fields and columns. -/
theorem mutation_scope_witness :
    (tmd1.key = tmd0.key ∧ tmd1.columns = tmd0.columns ∧ tmd1.tags = tmd0.tags) ∧
    (colDescTd1.key = tmd0.key ∧ colDescTd1.description = tmd0.description ∧
      colDescTd1.tags = tmd0.tags ∧
      colDescTd1.columns.length = tmd0.columns.length ∧
      (∀ j : Nat, j ≠ 0 → colDescTd1.columns[j]? = tmd0.columns[j]?)) := by
  have h := mutation_scope H0 okEnv tmd0 0
  exact ⟨h.1 tmd1 (by rfl), h.2 colDescOut0 colDescTd1 (by rfl) (by rfl)⟩

/-- C6: for every exported function other than getPreviewData, a failed HTTP
call makes the result of the function reject with the original transport error
unchanged: no catch handler replaces or transforms it.  Stated for every
failure point of every such function, including each stage of the owner
update chains. -/
theorem error_propagation_unchanged (H : Helpers) (env : Env) (tableKey : String)
    (index : Option String) (source : Option String) (td : TableMetadata)
    (d : String) (ci : Nat) (item : UpdateOwnerPayload) (e : AxiosError) :
    (env (Call.get (tableDataTableURL H tableKey index source)) = Except.error e →
      (getTableData H env tableKey index source).2 = Except.error (RejectVal.axios e)) ∧
    (∀ t, env (Call.get (tableDataTableURL H tableKey index source)) = Except.ok t →
      env (Call.get (tableDataDashboardsURL H tableKey)) = Except.error e →
      (getTableData H env tableKey index source).2 = Except.error (RejectVal.axios e)) ∧
    (env (Call.get (tableDescriptionURL H td)) = Except.error e →
      (getTableDescription H env td).2 = Except.error (RejectVal.axios e)) ∧
    (env (Call.put (API_PATH ++ "/put_table_description")
        (Body.tableDesc d td.key "user")) = Except.error e →
      (updateTableDescription env d td).2 = Except.error (RejectVal.axios e)) ∧
    (env (Call.get (tableOwnersURL H tableKey)) = Except.error e →
      (getTableOwners H env tableKey).2 = Except.error (RejectVal.axios e)) ∧
    (∀ c, td.columns[ci]? = some c →
      env (Call.get (columnDescriptionURL H td c)) = Except.error e →
      getColumnDescription H env ci td =
        some ([Call.get (columnDescriptionURL H td c)],
          Except.error (RejectVal.axios e))) ∧
    (∀ c, td.columns[ci]? = some c →
      env (Call.put (API_PATH ++ "/put_column_description")
        (Body.columnDesc d c.name td.key "user")) = Except.error e →
      updateColumnDescription env d ci td =
        some ([Call.put (API_PATH ++ "/put_column_description")
          (Body.columnDesc d c.name td.key "user")],
          Except.error (RejectVal.axios e))) ∧
    (env (Call.get (API_PATH ++ "/get_last_indexed")) = Except.error e →
      (getLastIndexed env).2 = Except.error (RejectVal.axios e)) ∧
    (env (ownerUpdateCall H td item) = Except.error e →
      (ownerUpdateChain H env td item).2 = Except.error (RejectVal.axios e)) ∧
    (∀ r, env (ownerUpdateCall H td item) = Except.ok r →
      env (ownerUserCall item) = Except.error e →
      (ownerUpdateChain H env td item).2 = Except.error (RejectVal.axios e)) ∧
    (∀ r u, env (ownerUpdateCall H td item) = Except.ok r →
      env (ownerUserCall item) = Except.ok u →
      H.shouldSendNotification u.data.user = true →
      env (ownerNotifCall H td item) = Except.error e →
      (ownerUpdateChain H env td item).2 = Except.error (RejectVal.axios e)) := by
  refine ⟨?_, ?_, ?_, ?_, ?_, ?_, ?_, ?_, ?_, ?_, ?_⟩
  · intro h
    cases hd : env (Call.get (tableDataDashboardsURL H tableKey)) <;>
      simp [getTableData, h, hd]
  · intro t ht hd
    simp [getTableData, ht, hd]
  · intro h
    simp [getTableDescription, h]
  · intro h
    simp [updateTableDescription, h]
  · intro h
    simp [getTableOwners, h]
  · intro c hc h
    rw [getColumnDescription_eq H env ci td c hc, h]
  · intro c hc h
    rw [updateColumnDescription_eq env d ci td c hc, h]
  · intro h
    simp [getLastIndexed, h]
  · intro h
    simp [ownerUpdateChain, h]
  · intro r hr h
    simp [ownerUpdateChain, hr, h]
  · intro r u hr hu hs h
    simp [ownerUpdateChain, hr, hu, hs, h]

/-- Witness for C6: every failure point exercised at concrete inputs, with a
suitable concrete environment for each stage. -/
theorem error_propagation_unchanged_witness :
    (getTableData H0 errEnv "k1" none none).2 = Except.error (RejectVal.axios err0) ∧
    (getTableData H0 dashFailEnv "k1" none none).2 = Except.error (RejectVal.axios err0) ∧
    (getTableDescription H0 errEnv tmd0).2 = Except.error (RejectVal.axios err0) ∧
    (updateTableDescription errEnv "d" tmd0).2 = Except.error (RejectVal.axios err0) ∧
    (getTableOwners H0 errEnv "k1").2 = Except.error (RejectVal.axios err0) ∧
    getColumnDescription H0 errEnv 0 tmd0 =
      some ([Call.get (columnDescriptionURL H0 tmd0 col0)],
        Except.error (RejectVal.axios err0)) ∧
    updateColumnDescription errEnv "d" 0 tmd0 =
      some ([Call.put (API_PATH ++ "/put_column_description")
        (Body.columnDesc "d" col0.name tmd0.key "user")],
        Except.error (RejectVal.axios err0)) ∧
    (getLastIndexed errEnv).2 = Except.error (RejectVal.axios err0) ∧
    (ownerUpdateChain H0 errEnv tmd0 item0).2 = Except.error (RejectVal.axios err0) ∧
    (ownerUpdateChain H0 mixedEnv tmd0 item0).2 = Except.error (RejectVal.axios err0) ∧
    (ownerUpdateChain H0 notifFailEnv tmd0 item0).2 = Except.error (RejectVal.axios err0) := by
  have ha := error_propagation_unchanged H0 errEnv "k1" none none tmd0 "d" 0 item0 err0
  have hb := error_propagation_unchanged H0 dashFailEnv "k1" none none tmd0 "d" 0 item0 err0
  have hc := error_propagation_unchanged H0 mixedEnv "k1" none none tmd0 "d" 0 item0 err0
  have hd := error_propagation_unchanged H0 notifFailEnv "k1" none none tmd0 "d" 0 item0 err0
  exact ⟨ha.1 rfl, hb.2.1 okResp rfl rfl, ha.2.2.1 rfl, ha.2.2.2.1 rfl,
    ha.2.2.2.2.1 rfl, ha.2.2.2.2.2.1 col0 rfl rfl, ha.2.2.2.2.2.2.1 col0 rfl rfl,
    ha.2.2.2.2.2.2.2.1 rfl, ha.2.2.2.2.2.2.2.2.1 rfl,
    hc.2.2.2.2.2.2.2.2.2.1 okResp rfl rfl,
    hd.2.2.2.2.2.2.2.2.2.2 okResp okResp rfl rfl rfl rfl⟩

/-- C8: on success, getTableDescription resolves with its tableData argument
after overwriting only its description field with the description of the response,
and getColumnDescription resolves with its tableData argument after
overwriting only the description field of the column at columnIndex; every
other field and every other column is unchanged (the source performs the
assignment in place on the object the caller passed and returns that same object). -/
theorem description_update_frame (H : Helpers) (env : Env) (td : TableMetadata)
    (ci : Nat) :
    (∀ r, env (Call.get (tableDescriptionURL H td)) = Except.ok r →
      (getTableDescription H env td).2 =
        Except.ok { td with description := r.data.description }) ∧
    (∀ c r, td.columns[ci]? = some c →
      env (Call.get (columnDescriptionURL H td c)) = Except.ok r →
      ∃ td1,
        getColumnDescription H env ci td =
          some ([Call.get (columnDescriptionURL H td c)], Except.ok td1) ∧
        td1.key = td.key ∧ td1.description = td.description ∧ td1.tags = td.tags ∧
        td1.columns.length = td.columns.length ∧
        (∀ j : Nat, j ≠ ci → td1.columns[j]? = td.columns[j]?) ∧
        td1.columns[ci]? = some { c with description := r.data.description }) := by
  constructor
  · intro r h
    simp [getTableDescription, h]
  · intro c r hc h
    refine ⟨setColumnDescription td ci c r.data.description, ?_, rfl, rfl, rfl,
      ?_, ?_, ?_⟩
    · rw [getColumnDescription_eq H env ci td c hc, h]
    · simp [setColumnDescription]
    · intro j hj
      simp only [setColumnDescription]
      exact List.getElem?_set_ne (fun hh => hj hh.symm)
    · simp only [setColumnDescription]
      exact List.getElem?_set_eq_of_lt _ (List.getElem?_eq_some.mp hc).1

/-- Witness for C8: concrete successful runs of both functions. -/
theorem description_update_frame_witness :
    (getTableDescription H0 okEnv tmd0).2 =
      Except.ok { tmd0 with description := okResp.data.description } ∧
    ∃ td1,
      getColumnDescription H0 okEnv 0 tmd0 =
        some ([Call.get (columnDescriptionURL H0 tmd0 col0)], Except.ok td1) ∧
      td1.key = tmd0.key ∧ td1.description = tmd0.description ∧
      td1.tags = tmd0.tags ∧ td1.columns.length = tmd0.columns.length ∧
      (∀ j : Nat, j ≠ 0 → td1.columns[j]? = tmd0.columns[j]?) ∧
      td1.columns[0]? = some { col0 with description := okResp.data.description } := by
  have h := description_update_frame H0 okEnv tmd0 0
  exact ⟨h.1 okResp rfl, h.2 col0 okResp rfl rfl⟩

end V0
